import Mathlib

/-!
Shallow embedding of `src/libs/nft-events/src/erc721.rs` (the ERC721
tracking module of `evm-nft-tracker`).

The entry point `track_erc721_events` is an infinite polling loop.
Each iteration queries the latest block number, computes a scan range with a
6-block confirmation lag, fetches events for that range and processes each
event against a persistent metadata store, adapting the step size when the
provider rejects a range as too large.  We embed one loop iteration as a
pure function `track_iter` on an explicit `ScanState`, driven by an
`IterInput` that supplies the outcomes of the two network calls of that
iteration, and `run_loop` folds a list of such inputs.  Rust `u64`
arithmetic is modelled on `Nat` with explicit wrapping (`wadd`, `wsub`).
The collaborator crates `erc721_db` and the metadata methods of `EvmClient`
are not part of the source of this module; their behaviour is modelled from the
interface contracts of the spec (§6), with the store as an explicit `DB` value
threaded through the functions.
-/

/-- Modulus of the Rust `u64` machine integer type. -/
def u64Mod : Nat := 2 ^ 64

/-- Wrapping `u64` addition, the semantics of Rust `a + b` in release mode. -/
def wadd (a b : Nat) : Nat := (a + b) % u64Mod

/-- Wrapping `u64` subtraction, the semantics of Rust `a - b` in release
mode: on `a < b` the result wraps around instead of being the mathematical
difference. -/
def wsub (a b : Nat) : Nat := (a % u64Mod + u64Mod - b % u64Mod) % u64Mod

/-- Embeds line 40, `std::cmp::min(from + step - 1, latest_block_number - 6)`,
with the `u64` operations made explicit. -/
def compute_to (from_ step latest : Nat) : Nat :=
  min (wsub (wadd from_ step) 1) (wsub latest 6)

/-- True when `needle` occurs as a contiguous subsequence of the second
list, the semantics of the Rust `str::contains` method on character sequences. -/
def contains_seq (needle : List Char) : List Char → Bool
  | [] => needle.isEmpty
  | c :: rest => List.isPrefixOf needle (c :: rest) || contains_seq needle rest

/-- Embeds the classification `e.message.contains("more than")` on line 80. -/
def contains_more_than (msg : String) : Bool :=
  contains_seq "more than".toList msg.toList

/-- The fields of `erc721_evm::Erc721Event` that this module reads: the
contract address (rendered as its debug string) and the token id (rendered
as its decimal string). -/
structure Erc721Event where
  address : String
  token_id : String
  deriving DecidableEq

/-- Modelled from the spec: a `Collection` row of the metadata store, the
tuple `(id, address, name, symbol)` returned by
`erc721_db::get_collection_from_db` (spec §3, §6: `name`/`symbol` optional,
`address` the unique key). -/
structure Collection where
  id : Nat
  address : String
  name : Option String
  symbol : Option String
  deriving DecidableEq

/-- Modelled from the spec: a `Token` row of the metadata store, keyed by
`(collection_id, token_id)` with an optional stored URI (spec §3, §6). -/
structure Token where
  token_id : String
  collection_id : Nat
  token_uri : Option String
  deriving DecidableEq

/-- Modelled from the spec: the state of the metadata store (spec §6), rows
in insertion order plus the next fresh collection id. -/
structure DB where
  collections : List Collection
  tokens : List Token
  next_id : Nat
  deriving DecidableEq

/-- The empty store, the state right after schema creation. -/
def dbEmpty : DB := ⟨[], [], 0⟩

/-- Modelled from the spec: `erc721_db::get_collection_from_db`
(`getCollection(address) → Collection?`, spec §6). -/
def get_collection_from_db (db : DB) (address : String) : Option Collection :=
  db.collections.find? (fun c => c.address == address)

/-- Modelled from the spec: `erc721_db::add_collection_to_db`
(`createCollection(address, name?, symbol?) → collectionId`, spec §6). -/
def add_collection_to_db (db : DB) (address : String) (name symbol : Option String) :
    Nat × DB :=
  (db.next_id,
   ⟨db.collections ++ [⟨db.next_id, address, name, symbol⟩], db.tokens, db.next_id + 1⟩)

/-- Modelled from the spec: `erc721_db::get_token_from_db`
(`getToken(collectionId, tokenId) → Token?`, spec §6). -/
def get_token_from_db (db : DB) (collection_id : Nat) (token_id : String) : Option Token :=
  db.tokens.find? (fun t => t.collection_id == collection_id && t.token_id == token_id)

/-- Modelled from the spec: `erc721_db::add_token_to_db`
(`createToken(tokenId, collectionId, uri) → tokenId`, spec §6). -/
def add_token_to_db (db : DB) (token_id : String) (collection_id : Nat)
    (token_uri : String) : DB :=
  ⟨db.collections, db.tokens ++ [⟨token_id, collection_id, some token_uri⟩], db.next_id⟩

/-- The two metadata methods of `EvmClient` that this module calls, given as
response oracles: `get_erc721_name_symbol` (spec §6
`fetchCollectionNameSymbol(address) → (name?, symbol?) | error`) and
`get_erc721_token_uri` (spec §6 `fetchTokenUri(address, tokenId) → uri | error`). -/
structure EvmClient where
  get_erc721_name_symbol : String → Except Unit (Option (String × String))
  get_erc721_token_uri : String → String → Except Unit String

/-- A remote metadata fetch performed against the chain client, recorded so
that theorems can speak about when the code re-fetches. -/
inductive RemoteFetch where
  | nameSymbol (address : String)
  | tokenUri (address : String) (token_id : String)
  deriving DecidableEq

/-- Embeds the `let collection_id = if let Some(collection) = ... ;` block of
`save_metadata_to_db_if_not_exists` (lines 156-170): look the collection up
by address; on a miss fetch name/symbol from the chain and create the row,
with both fields set when the chain returned the pair and both unset when
it returned `None`; a fetch error propagates before any row is written. -/
def ensure_collection_id (client : EvmClient) (db : DB) (address : String) :
    DB × List RemoteFetch × Except Unit Nat :=
  match get_collection_from_db db address with
  | some collection => (db, [], Except.ok collection.id)
  | none =>
    match client.get_erc721_name_symbol address with
    | Except.error e => (db, [RemoteFetch.nameSymbol address], Except.error e)
    | Except.ok (some (name, symbol)) =>
      let r := add_collection_to_db db address (some name) (some symbol)
      (r.2, [RemoteFetch.nameSymbol address], Except.ok r.1)
    | Except.ok none =>
      let r := add_collection_to_db db address none none
      (r.2, [RemoteFetch.nameSymbol address], Except.ok r.1)

/-- Embeds `save_metadata_to_db_if_not_exists` (lines 149-178): ensure the
collection row exists (lines 156-170, `ensure_collection_id`), then ensure
the token row exists (lines 172-176): on a miss fetch the URI on first
sight; a failed URI fetch propagates before any token row is written.
Returns the updated store, the remote fetches performed, and the `Result`. -/
def save_metadata_to_db_if_not_exists (client : EvmClient) (db : DB)
    (address token_id : String) : DB × List RemoteFetch × Except Unit Unit :=
  match ensure_collection_id client db address with
  | (db1, fs, Except.error e) => (db1, fs, Except.error e)
  | (db1, fs, Except.ok collection_id) =>
    match get_token_from_db db1 collection_id token_id with
    | some _ => (db1, fs, Except.ok ())
    | none =>
      match client.get_erc721_token_uri address token_id with
      | Except.error e =>
        (db1, fs ++ [RemoteFetch.tokenUri address token_id], Except.error e)
      | Except.ok token_uri =>
        (add_token_to_db db1 token_id collection_id token_uri,
         fs ++ [RemoteFetch.tokenUri address token_id], Except.ok ())

/-- How a call of `get_metadata` or `process_event` can fail: a propagated
chain-client error, a panic of one of the two `.unwrap()` calls on lines
138/140, or a propagated callback error. -/
inductive RErr where
  | chainErr
  | panicErr
  | callbackErr
  deriving DecidableEq

/-- Embeds `get_metadata` (lines 131-147): save metadata if absent, re-read
the collection and token rows (unwrapping, which panics on `None`), and
return the enriched triple when name, symbol and URI are all present,
`None` (pending) otherwise. -/
def get_metadata (client : EvmClient) (db : DB) (event : Erc721Event) :
    DB × List RemoteFetch × Except RErr (Option (String × String × String)) :=
  match save_metadata_to_db_if_not_exists client db event.address event.token_id with
  | (db1, fs, Except.error _) => (db1, fs, Except.error RErr.chainErr)
  | (db1, fs, Except.ok ()) =>
    match get_collection_from_db db1 event.address with
    | none => (db1, fs, Except.error RErr.panicErr)
    | some collection =>
      match get_token_from_db db1 collection.id event.token_id with
      | none => (db1, fs, Except.error RErr.panicErr)
      | some token =>
        match collection.name, collection.symbol, token.token_uri with
        | some n, some s, some u => (db1, fs, Except.ok (some (n, s, u)))
        | some _, some _, none => (db1, fs, Except.ok none)
        | some _, none, _ => (db1, fs, Except.ok none)
        | none, _, _ => (db1, fs, Except.ok none)

/-- One delivery to `Erc721EventCallback::on_erc721_event` (lines 118-125),
with the constant `total_supply = Some(0)` placeholder of line 115. -/
structure CallbackInvocation where
  event : Erc721Event
  name : String
  symbol : String
  total_supply : Option Nat
  token_uri : String
  deriving DecidableEq

/-- Embeds `process_event` (lines 110-129): resolve metadata; if enriched,
invoke the callback (whose outcome the oracle `cb` supplies) and propagate
its error; if pending, return `Ok` without invoking the callback.  Returns
the updated store, the callback invocations performed, and the `Result`. -/
def process_event (client : EvmClient) (cb : Erc721Event → Except Unit Unit)
    (db : DB) (event : Erc721Event) : DB × List CallbackInvocation × Except RErr Unit :=
  match get_metadata client db event with
  | (db1, _, Except.error e) => (db1, [], Except.error e)
  | (db1, _, Except.ok none) => (db1, [], Except.ok ())
  | (db1, _, Except.ok (some (n, s, u))) =>
    match cb event with
    | Except.ok () => (db1, [⟨event, n, s, some 0, u⟩], Except.ok ())
    | Except.error _ => (db1, [⟨event, n, s, some 0, u⟩], Except.error RErr.callbackErr)

/-- Embeds the per-event loop of lines 66-71: each event is processed in
order; an `Err` from `process_event` is logged and dropped, never
propagated, so the fold is total and always reaches the remaining events. -/
def process_batch (client : EvmClient) (cb : Erc721Event → Except Unit Unit) :
    DB → List Erc721Event → DB × List CallbackInvocation
  | db, [] => (db, [])
  | db, event :: rest =>
    let r := process_event client cb db event
    let rr := process_batch client cb r.1 rest
    (rr.1, r.2.1 ++ rr.2)

/-- Outcome of `EvmClient::get_latest_block_number` for one iteration. -/
inductive HeadResult where
  | ok (latest : Nat)
  | err
  deriving DecidableEq

/-- Outcome of `erc721_evm::get_erc721_events` for one iteration: success
with the fetched events, an RPC error carrying its message (the
`Error::Web3Error(web3::Error::Rpc(e))` arm of line 79), or any other error. -/
inductive FetchResult where
  | ok (events : List Erc721Event)
  | rpcErr (message : String)
  | otherErr
  deriving DecidableEq

/-- The oracle responses one loop iteration can consume. -/
structure IterInput where
  head : HeadResult
  fetch : FetchResult
  deriving DecidableEq

/-- The mutable state of `track_erc721_events`: the cursor `from` and the
current `step`, plus the metadata store the iteration writes through. -/
structure ScanState where
  from_ : Nat
  step : Nat
  db : DB
  deriving DecidableEq

/-- Observable outcome of one loop iteration: the new state, whether the
loop `break`s, the range passed to the event fetch (if one was issued), the
seconds slept at the end of the iteration, and the callback invocations. -/
structure IterOutput where
  state : ScanState
  brk : Bool
  fetched : Option (Nat × Nat)
  sleep_secs : Nat
  invocations : List CallbackInvocation
  deriving DecidableEq

/-- Embeds the `break` condition of lines 41-45: only a set `end_block`
with `to > end_block` terminates the loop. -/
def break_check (end_block : Option Nat) (t : Nat) : Bool :=
  match end_block with
  | some e => decide (t > e)
  | none => false

/-- Embeds one iteration of the `loop` in `track_erc721_events`
(lines 37-107): query the head (on failure sleep 30s, state unchanged);
compute `to`; break when past `end_block`; when `to >= from` fetch
`[from, to]` — on success process the batch, advance `from = to + 1` and
sleep 5s; on an RPC error whose message contains "more than" halve the step
(floor 1) with no sleep; on any other fetch error sleep 30s unchanged; when
`to < from` sleep 30s unchanged. -/
def track_iter (client : EvmClient) (cb : Erc721Event → Except Unit Unit)
    (end_block : Option Nat) (st : ScanState) (inp : IterInput) : IterOutput :=
  match inp.head with
  | HeadResult.err => ⟨st, false, none, 30, []⟩
  | HeadResult.ok latest =>
    let t := compute_to st.from_ st.step latest
    if break_check end_block t then
      ⟨st, true, none, 0, []⟩
    else if st.from_ ≤ t then
      match inp.fetch with
      | FetchResult.ok events =>
        let r := process_batch client cb st.db events
        ⟨⟨t + 1, st.step, r.1⟩, false, some (st.from_, t), 5, r.2⟩
      | FetchResult.rpcErr msg =>
        if contains_more_than msg then
          ⟨⟨st.from_, max (st.step / 2) 1, st.db⟩, false, none, 0, []⟩
        else
          ⟨st, false, none, 30, []⟩
      | FetchResult.otherErr => ⟨st, false, none, 30, []⟩
    else
      ⟨st, false, none, 30, []⟩

/-- Aggregate observables of a finite prefix of the execution of the loop. -/
structure RunResult where
  state : ScanState
  terminated : Bool
  fetched : List (Nat × Nat)
  invocations : List CallbackInvocation
  deriving DecidableEq

/-- Runs `track_iter` over a list of per-iteration oracle inputs, stopping
early when an iteration breaks; records every fetched range and every
callback invocation in order. -/
def run_loop (client : EvmClient) (cb : Erc721Event → Except Unit Unit)
    (end_block : Option Nat) : ScanState → List IterInput → RunResult
  | st, [] => ⟨st, false, [], []⟩
  | st, inp :: rest =>
    let out := track_iter client cb end_block st inp
    if out.brk then ⟨out.state, true, [], []⟩
    else
      let r := run_loop client cb end_block out.state rest
      ⟨r.state, r.terminated, out.fetched.toList ++ r.fetched,
       out.invocations ++ r.invocations⟩

/-- True when the block `b` lies inside one of the fetched ranges. -/
def covers (ranges : List (Nat × Nat)) (b : Nat) : Bool :=
  ranges.any (fun p => p.1 ≤ b && b ≤ p.2)

/-- Condition under which `get_metadata` returns an enriched triple rather
than pending, read off the stored rows: the collection row has both name
and symbol set and the token row has a URI set (line 142). -/
def metadata_ready (db : DB) (event : Erc721Event) : Bool :=
  match get_collection_from_db db event.address with
  | none => false
  | some collection =>
    match get_token_from_db db collection.id event.token_id with
    | none => false
    | some token =>
      collection.name.isSome && collection.symbol.isSome && token.token_uri.isSome

/-- The at-most-once creation invariant on the store: collection addresses
are pairwise distinct and `(collection_id, token_id)` pairs of token rows
are pairwise distinct. -/
def db_inv (db : DB) : Prop :=
  (db.collections.map (fun c => c.address)).Nodup ∧
  (db.tokens.map (fun t => (t.collection_id, t.token_id))).Nodup

instance (db : DB) : Decidable (db_inv db) := by
  unfold db_inv
  infer_instance

/-- A chain-client oracle whose metadata calls always succeed, for concrete
scenario runs. -/
def client0 : EvmClient :=
  ⟨fun _ => Except.ok (some ("Name", "SYM")), fun _ _ => Except.ok "uri"⟩

/-- A callback oracle that always succeeds, for concrete scenario runs. -/
def cb0 : Erc721Event → Except Unit Unit := fun _ => Except.ok ()

instance {α β : Type} [DecidableEq α] [DecidableEq β] : DecidableEq (Except α β) :=
  fun a b =>
    match a, b with
    | Except.ok x, Except.ok y =>
      if h : x = y then isTrue (by rw [h]) else isFalse (by simp [h])
    | Except.error x, Except.error y =>
      if h : x = y then isTrue (by rw [h]) else isFalse (by simp [h])
    | Except.ok _, Except.error _ => isFalse (by simp)
    | Except.error _, Except.ok _ => isFalse (by simp)

lemma get_collection_add_token (db : DB) (t : String) (cid : Nat) (u : String)
    (a : String) :
    get_collection_from_db (add_token_to_db db t cid u) a = get_collection_from_db db a :=
  rfl

lemma get_token_add_collection (db : DB) (a : String) (n s : Option String)
    (cid : Nat) (t : String) :
    get_token_from_db (add_collection_to_db db a n s).2 cid t = get_token_from_db db cid t :=
  rfl

lemma get_token_add_token_self (db : DB) (cid : Nat) (t u : String)
    (h : get_token_from_db db cid t = none) :
    get_token_from_db (add_token_to_db db t cid u) cid t = some ⟨t, cid, some u⟩ := by
  unfold get_token_from_db add_token_to_db at *
  rw [List.find?_append, h]
  simp

lemma get_collection_add_collection_self (db : DB) (a : String) (n s : Option String)
    (h : get_collection_from_db db a = none) :
    get_collection_from_db (add_collection_to_db db a n s).2 a =
      some ⟨db.next_id, a, n, s⟩ := by
  unfold get_collection_from_db add_collection_to_db at *
  rw [List.find?_append, h]
  simp

lemma ensure_found (client : EvmClient) (db : DB) (a : String) (c : Collection)
    (hc : get_collection_from_db db a = some c) :
    ensure_collection_id client db a = (db, [], Except.ok c.id) := by
  unfold ensure_collection_id
  rw [hc]

lemma ensure_absent_pair (client : EvmClient) (db : DB) (a : String) (n s : String)
    (hc : get_collection_from_db db a = none)
    (hns : client.get_erc721_name_symbol a = Except.ok (some (n, s))) :
    ensure_collection_id client db a =
      ((add_collection_to_db db a (some n) (some s)).2, [RemoteFetch.nameSymbol a],
        Except.ok db.next_id) := by
  unfold ensure_collection_id
  rw [hc, hns]
  rfl

lemma ensure_absent_none (client : EvmClient) (db : DB) (a : String)
    (hc : get_collection_from_db db a = none)
    (hns : client.get_erc721_name_symbol a = Except.ok none) :
    ensure_collection_id client db a =
      ((add_collection_to_db db a none none).2, [RemoteFetch.nameSymbol a],
        Except.ok db.next_id) := by
  unfold ensure_collection_id
  rw [hc, hns]
  rfl

lemma ensure_absent_err (client : EvmClient) (db : DB) (a : String) (e : Unit)
    (hc : get_collection_from_db db a = none)
    (hns : client.get_erc721_name_symbol a = Except.error e) :
    ensure_collection_id client db a = (db, [RemoteFetch.nameSymbol a], Except.error e) := by
  unfold ensure_collection_id
  rw [hc, hns]

lemma save_token_found (client : EvmClient) (db db1 : DB) (a t : String)
    (fs : List RemoteFetch) (cid : Nat) (tok : Token)
    (he : ensure_collection_id client db a = (db1, fs, Except.ok cid))
    (ht : get_token_from_db db1 cid t = some tok) :
    save_metadata_to_db_if_not_exists client db a t = (db1, fs, Except.ok ()) := by
  unfold save_metadata_to_db_if_not_exists
  simp only [he, ht]

lemma save_token_added (client : EvmClient) (db db1 : DB) (a t : String)
    (fs : List RemoteFetch) (cid : Nat) (u : String)
    (he : ensure_collection_id client db a = (db1, fs, Except.ok cid))
    (ht : get_token_from_db db1 cid t = none)
    (hu : client.get_erc721_token_uri a t = Except.ok u) :
    save_metadata_to_db_if_not_exists client db a t =
      (add_token_to_db db1 t cid u, fs ++ [RemoteFetch.tokenUri a t], Except.ok ()) := by
  unfold save_metadata_to_db_if_not_exists
  simp only [he, ht, hu]

lemma save_token_err (client : EvmClient) (db db1 : DB) (a t : String)
    (fs : List RemoteFetch) (cid : Nat) (e : Unit)
    (he : ensure_collection_id client db a = (db1, fs, Except.ok cid))
    (ht : get_token_from_db db1 cid t = none)
    (hu : client.get_erc721_token_uri a t = Except.error e) :
    save_metadata_to_db_if_not_exists client db a t =
      (db1, fs ++ [RemoteFetch.tokenUri a t], Except.error e) := by
  unfold save_metadata_to_db_if_not_exists
  simp only [he, ht, hu]

lemma save_coll_err (client : EvmClient) (db db1 : DB) (a t : String)
    (fs : List RemoteFetch) (e : Unit)
    (he : ensure_collection_id client db a = (db1, fs, Except.error e)) :
    save_metadata_to_db_if_not_exists client db a t = (db1, fs, Except.error e) := by
  unfold save_metadata_to_db_if_not_exists
  simp only [he]

lemma save_ok_lookups (client : EvmClient) (db : DB) (a t : String)
    (h : (save_metadata_to_db_if_not_exists client db a t).2.2 = Except.ok ()) :
    ∃ c, get_collection_from_db (save_metadata_to_db_if_not_exists client db a t).1 a
        = some c ∧
      ∃ tok, get_token_from_db (save_metadata_to_db_if_not_exists client db a t).1 c.id t
        = some tok := by
  cases hc : get_collection_from_db db a with
  | some c =>
    have he := ensure_found client db a c hc
    cases ht : get_token_from_db db c.id t with
    | some tok =>
      rw [save_token_found client db db a t [] c.id tok he ht]
      exact ⟨c, hc, tok, ht⟩
    | none =>
      cases hu : client.get_erc721_token_uri a t with
      | error e =>
        rw [save_token_err client db db a t [] c.id e he ht hu] at h
        simp at h
      | ok u =>
        rw [save_token_added client db db a t [] c.id u he ht hu]
        exact ⟨c, hc, ⟨t, c.id, some u⟩, get_token_add_token_self db c.id t u ht⟩
  | none =>
    cases hns : client.get_erc721_name_symbol a with
    | error e =>
      rw [save_coll_err client db db a t [RemoteFetch.nameSymbol a] e
        (ensure_absent_err client db a e hc hns)] at h
      simp at h
    | ok o =>
      cases o with
      | some pr =>
        obtain ⟨n, s⟩ := pr
        have he := ensure_absent_pair client db a n s hc hns
        have hcoll := get_collection_add_collection_self db a (some n) (some s) hc
        cases ht : get_token_from_db (add_collection_to_db db a (some n) (some s)).2
            db.next_id t with
        | some tok =>
          rw [save_token_found client db _ a t _ db.next_id tok he ht]
          exact ⟨⟨db.next_id, a, some n, some s⟩, hcoll, tok, ht⟩
        | none =>
          cases hu : client.get_erc721_token_uri a t with
          | error e =>
            rw [save_token_err client db _ a t _ db.next_id e he ht hu] at h
            simp at h
          | ok u =>
            rw [save_token_added client db _ a t _ db.next_id u he ht hu]
            refine ⟨⟨db.next_id, a, some n, some s⟩, ?_, ⟨t, db.next_id, some u⟩, ?_⟩
            · rw [get_collection_add_token]
              exact hcoll
            · exact get_token_add_token_self _ db.next_id t u ht
      | none =>
        have he := ensure_absent_none client db a hc hns
        have hcoll := get_collection_add_collection_self db a none none hc
        cases ht : get_token_from_db (add_collection_to_db db a none none).2
            db.next_id t with
        | some tok =>
          rw [save_token_found client db _ a t _ db.next_id tok he ht]
          exact ⟨⟨db.next_id, a, none, none⟩, hcoll, tok, ht⟩
        | none =>
          cases hu : client.get_erc721_token_uri a t with
          | error e =>
            rw [save_token_err client db _ a t _ db.next_id e he ht hu] at h
            simp at h
          | ok u =>
            rw [save_token_added client db _ a t _ db.next_id u he ht hu]
            refine ⟨⟨db.next_id, a, none, none⟩, ?_, ⟨t, db.next_id, some u⟩, ?_⟩
            · rw [get_collection_add_token]
              exact hcoll
            · exact get_token_add_token_self _ db.next_id t u ht

lemma get_metadata_ready (client : EvmClient) (db db1 : DB) (event : Erc721Event)
    (fs : List RemoteFetch) (c : Collection) (tok : Token) (n s u : String)
    (hs : save_metadata_to_db_if_not_exists client db event.address event.token_id
      = (db1, fs, Except.ok ()))
    (hcoll : get_collection_from_db db1 event.address = some c)
    (htok : get_token_from_db db1 c.id event.token_id = some tok)
    (hn : c.name = some n) (hsym : c.symbol = some s) (hu : tok.token_uri = some u) :
    get_metadata client db event = (db1, fs, Except.ok (some (n, s, u))) := by
  unfold get_metadata
  simp only [hs, hcoll, htok, hn, hsym, hu]

lemma get_metadata_pending (client : EvmClient) (db db1 : DB) (event : Erc721Event)
    (fs : List RemoteFetch) (c : Collection) (tok : Token)
    (hs : save_metadata_to_db_if_not_exists client db event.address event.token_id
      = (db1, fs, Except.ok ()))
    (hcoll : get_collection_from_db db1 event.address = some c)
    (htok : get_token_from_db db1 c.id event.token_id = some tok)
    (hcond : (c.name.isSome && c.symbol.isSome && tok.token_uri.isSome) = false) :
    get_metadata client db event = (db1, fs, Except.ok none) := by
  unfold get_metadata
  simp only [hs, hcoll, htok]
  cases hn : c.name with
  | none => rfl
  | some n =>
    cases hsym : c.symbol with
    | none => rfl
    | some s =>
      cases hu : tok.token_uri with
      | none => rfl
      | some u => simp [hn, hsym, hu] at hcond

lemma get_metadata_save_err (client : EvmClient) (db db1 : DB) (event : Erc721Event)
    (fs : List RemoteFetch) (e : Unit)
    (hs : save_metadata_to_db_if_not_exists client db event.address event.token_id
      = (db1, fs, Except.error e)) :
    get_metadata client db event = (db1, fs, Except.error RErr.chainErr) := by
  unfold get_metadata
  simp only [hs]

lemma metadata_ready_eq (db1 : DB) (event : Erc721Event) (c : Collection) (tok : Token)
    (hcoll : get_collection_from_db db1 event.address = some c)
    (htok : get_token_from_db db1 c.id event.token_id = some tok) :
    metadata_ready db1 event
      = (c.name.isSome && c.symbol.isSome && tok.token_uri.isSome) := by
  unfold metadata_ready
  simp only [hcoll, htok]

lemma process_event_of_ready (client : EvmClient) (cb : Erc721Event → Except Unit Unit)
    (db db1 : DB) (event : Erc721Event) (fs : List RemoteFetch) (n s u : String)
    (hm : get_metadata client db event = (db1, fs, Except.ok (some (n, s, u)))) :
    (process_event client cb db event).1 = db1 ∧
    (process_event client cb db event).2.1 = [⟨event, n, s, some 0, u⟩] := by
  unfold process_event
  simp only [hm]
  cases hcb : cb event with
  | ok v =>
    cases v
    exact ⟨rfl, rfl⟩
  | error e => exact ⟨rfl, rfl⟩

lemma process_event_of_pending (client : EvmClient) (cb : Erc721Event → Except Unit Unit)
    (db db1 : DB) (event : Erc721Event) (fs : List RemoteFetch)
    (hm : get_metadata client db event = (db1, fs, Except.ok none)) :
    process_event client cb db event = (db1, [], Except.ok ()) := by
  unfold process_event
  simp only [hm]

lemma process_event_of_err (client : EvmClient) (cb : Erc721Event → Except Unit Unit)
    (db db1 : DB) (event : Erc721Event) (fs : List RemoteFetch) (e : RErr)
    (hm : get_metadata client db event = (db1, fs, Except.error e)) :
    process_event client cb db event = (db1, [], Except.error e) := by
  unfold process_event
  simp only [hm]

lemma get_metadata_db (client : EvmClient) (db : DB) (event : Erc721Event) :
    (get_metadata client db event).1
      = (save_metadata_to_db_if_not_exists client db event.address event.token_id).1 := by
  unfold get_metadata
  rcases hs : save_metadata_to_db_if_not_exists client db event.address event.token_id
    with ⟨db1, fs, r⟩
  cases r with
  | error e => rfl
  | ok v =>
    cases v
    cases hcoll : get_collection_from_db db1 event.address with
    | none => simp [hcoll]
    | some c =>
      cases htok : get_token_from_db db1 c.id event.token_id with
      | none => simp [hcoll, htok]
      | some tok =>
        cases hn : c.name <;> cases hsym : c.symbol <;> cases hu : tok.token_uri <;>
          simp [hcoll, htok, hn, hsym, hu]

lemma process_event_db (client : EvmClient) (cb : Erc721Event → Except Unit Unit)
    (db : DB) (event : Erc721Event) :
    (process_event client cb db event).1
      = (save_metadata_to_db_if_not_exists client db event.address event.token_id).1 := by
  unfold process_event
  rcases hm : get_metadata client db event with ⟨db1, fs, r⟩
  have hdb : db1 = (save_metadata_to_db_if_not_exists client db event.address event.token_id).1 := by
    have := get_metadata_db client db event
    rw [hm] at this
    exact this
  cases r with
  | error e => exact hdb
  | ok v =>
    cases v with
    | none => exact hdb
    | some tr =>
      obtain ⟨n, s, u⟩ := tr
      cases hcb : cb event with
      | ok w =>
        cases w
        exact hdb
      | error e => exact hdb

lemma collection_addr_not_mem (db : DB) (a : String)
    (h : get_collection_from_db db a = none) :
    a ∉ db.collections.map (fun c => c.address) := by
  unfold get_collection_from_db at h
  rw [List.find?_eq_none] at h
  intro hmem
  obtain ⟨c, hc, hca⟩ := List.mem_map.mp hmem
  exact h c hc (by simp [hca])

lemma token_key_not_mem (db : DB) (cid : Nat) (t : String)
    (h : get_token_from_db db cid t = none) :
    (cid, t) ∉ db.tokens.map (fun x => (x.collection_id, x.token_id)) := by
  unfold get_token_from_db at h
  rw [List.find?_eq_none] at h
  intro hmem
  obtain ⟨tok, htok, hkey⟩ := List.mem_map.mp hmem
  have h1 : tok.collection_id = cid := congrArg Prod.fst hkey
  have h2 : tok.token_id = t := congrArg Prod.snd hkey
  exact h tok htok (by simp [h1, h2])

lemma nodup_snoc {α : Type} (l : List α) (x : α) (h : l.Nodup) (hx : x ∉ l) :
    (l ++ [x]).Nodup := by
  simp [List.nodup_append, h, hx]

lemma db_inv_add_token (db : DB) (cid : Nat) (t u : String)
    (hinv : db_inv db) (h : get_token_from_db db cid t = none) :
    db_inv (add_token_to_db db t cid u) := by
  obtain ⟨h1, h2⟩ := hinv
  refine ⟨h1, ?_⟩
  unfold add_token_to_db
  simp only [List.map_append, List.map_cons, List.map_nil]
  exact nodup_snoc _ _ h2 (token_key_not_mem db cid t h)

lemma db_inv_add_collection (db : DB) (a : String) (n s : Option String)
    (hinv : db_inv db) (h : get_collection_from_db db a = none) :
    db_inv (add_collection_to_db db a n s).2 := by
  obtain ⟨h1, h2⟩ := hinv
  refine ⟨?_, h2⟩
  unfold add_collection_to_db
  simp only [List.map_append, List.map_cons, List.map_nil]
  exact nodup_snoc _ _ h1 (collection_addr_not_mem db a h)

lemma tokens_add_collection (db : DB) (a : String) (n s : Option String) :
    (add_collection_to_db db a n s).2.tokens = db.tokens :=
  rfl

lemma save_preserves_inv (client : EvmClient) (db : DB) (a t : String)
    (hinv : db_inv db) :
    db_inv (save_metadata_to_db_if_not_exists client db a t).1 := by
  cases hc : get_collection_from_db db a with
  | some c =>
    have he := ensure_found client db a c hc
    cases ht : get_token_from_db db c.id t with
    | some tok =>
      rw [save_token_found client db db a t [] c.id tok he ht]
      exact hinv
    | none =>
      cases hu : client.get_erc721_token_uri a t with
      | error e =>
        rw [save_token_err client db db a t [] c.id e he ht hu]
        exact hinv
      | ok u =>
        rw [save_token_added client db db a t [] c.id u he ht hu]
        exact db_inv_add_token db c.id t u hinv ht
  | none =>
    cases hns : client.get_erc721_name_symbol a with
    | error e =>
      rw [save_coll_err client db db a t [RemoteFetch.nameSymbol a] e
        (ensure_absent_err client db a e hc hns)]
      exact hinv
    | ok o =>
      cases o with
      | some pr =>
        obtain ⟨n, s⟩ := pr
        have he := ensure_absent_pair client db a n s hc hns
        have hinv1 := db_inv_add_collection db a (some n) (some s) hinv hc
        cases ht : get_token_from_db (add_collection_to_db db a (some n) (some s)).2
            db.next_id t with
        | some tok =>
          rw [save_token_found client db _ a t _ db.next_id tok he ht]
          exact hinv1
        | none =>
          cases hu : client.get_erc721_token_uri a t with
          | error e =>
            rw [save_token_err client db _ a t _ db.next_id e he ht hu]
            exact hinv1
          | ok u =>
            rw [save_token_added client db _ a t _ db.next_id u he ht hu]
            exact db_inv_add_token _ db.next_id t u hinv1 ht
      | none =>
        have he := ensure_absent_none client db a hc hns
        have hinv1 := db_inv_add_collection db a none none hinv hc
        cases ht : get_token_from_db (add_collection_to_db db a none none).2
            db.next_id t with
        | some tok =>
          rw [save_token_found client db _ a t _ db.next_id tok he ht]
          exact hinv1
        | none =>
          cases hu : client.get_erc721_token_uri a t with
          | error e =>
            rw [save_token_err client db _ a t _ db.next_id e he ht hu]
            exact hinv1
          | ok u =>
            rw [save_token_added client db _ a t _ db.next_id u he ht hu]
            exact db_inv_add_token _ db.next_id t u hinv1 ht

lemma process_event_preserves_inv (client : EvmClient)
    (cb : Erc721Event → Except Unit Unit) (db : DB) (event : Erc721Event)
    (hinv : db_inv db) : db_inv (process_event client cb db event).1 := by
  rw [process_event_db]
  exact save_preserves_inv client db event.address event.token_id hinv

lemma process_batch_preserves_inv (client : EvmClient)
    (cb : Erc721Event → Except Unit Unit) (db : DB) (events : List Erc721Event)
    (hinv : db_inv db) : db_inv (process_batch client cb db events).1 := by
  induction events generalizing db with
  | nil => exact hinv
  | cons e rest ih =>
    unfold process_batch
    exact ih _ (process_event_preserves_inv client cb db e hinv)

lemma track_iter_preserves_inv (client : EvmClient)
    (cb : Erc721Event → Except Unit Unit) (eb : Option Nat) (st : ScanState)
    (inp : IterInput) (hinv : db_inv st.db) :
    db_inv (track_iter client cb eb st inp).state.db := by
  unfold track_iter
  cases inp.head with
  | err => exact hinv
  | ok latest =>
    simp only []
    split
    · exact hinv
    · split
      · cases hf : inp.fetch with
        | ok events =>
          simp only []
          exact process_batch_preserves_inv client cb st.db events hinv
        | rpcErr msg =>
          simp only []
          split
          · exact hinv
          · exact hinv
        | otherErr => exact hinv
      · exact hinv

lemma run_loop_preserves_inv (client : EvmClient)
    (cb : Erc721Event → Except Unit Unit) (eb : Option Nat) (st : ScanState)
    (inputs : List IterInput) (hinv : db_inv st.db) :
    db_inv (run_loop client cb eb st inputs).state.db := by
  induction inputs generalizing st with
  | nil => exact hinv
  | cons inp rest ih =>
    unfold run_loop
    simp only []
    split
    · exact track_iter_preserves_inv client cb eb st inp hinv
    · exact ih _ (track_iter_preserves_inv client cb eb st inp hinv)

lemma save_found_no_refetch (client : EvmClient) (db : DB) (a t : String) (c : Collection)
    (hc : get_collection_from_db db a = some c) :
    (save_metadata_to_db_if_not_exists client db a t).1.collections = db.collections ∧
    RemoteFetch.nameSymbol a ∉ (save_metadata_to_db_if_not_exists client db a t).2.1 := by
  have he := ensure_found client db a c hc
  cases ht : get_token_from_db db c.id t with
  | some tok =>
    rw [save_token_found client db db a t [] c.id tok he ht]
    simp
  | none =>
    cases hu : client.get_erc721_token_uri a t with
    | error e =>
      rw [save_token_err client db db a t [] c.id e he ht hu]
      simp
    | ok u =>
      rw [save_token_added client db db a t [] c.id u he ht hu]
      simp [add_token_to_db]

lemma save_both_found_noop (client : EvmClient) (db : DB) (a t : String)
    (c : Collection) (tok : Token)
    (hc : get_collection_from_db db a = some c)
    (ht : get_token_from_db db c.id t = some tok) :
    save_metadata_to_db_if_not_exists client db a t = (db, [], Except.ok ()) :=
  save_token_found client db db a t [] c.id tok (ensure_found client db a c hc) ht

lemma save_collections_parity (client : EvmClient) (db : DB) (a t : String)
    (c : Collection)
    (h : c ∈ (save_metadata_to_db_if_not_exists client db a t).1.collections) :
    c ∈ db.collections ∨ c.name.isSome = c.symbol.isSome := by
  cases hc : get_collection_from_db db a with
  | some c0 =>
    rw [(save_found_no_refetch client db a t c0 hc).1] at h
    exact Or.inl h
  | none =>
    cases hns : client.get_erc721_name_symbol a with
    | error e =>
      rw [save_coll_err client db db a t [RemoteFetch.nameSymbol a] e
        (ensure_absent_err client db a e hc hns)] at h
      exact Or.inl h
    | ok o =>
      have key : ∀ (n s : Option String), n.isSome = s.isSome →
          ensure_collection_id client db a =
            ((add_collection_to_db db a n s).2, [RemoteFetch.nameSymbol a],
              Except.ok db.next_id) →
          c ∈ db.collections ∨ c.name.isSome = c.symbol.isSome := by
        intro n s hpar he
        have hcolls : (save_metadata_to_db_if_not_exists client db a t).1.collections
            = db.collections ++ [⟨db.next_id, a, n, s⟩] := by
          cases ht : get_token_from_db (add_collection_to_db db a n s).2 db.next_id t with
          | some tok =>
            rw [save_token_found client db _ a t _ db.next_id tok he ht]
            rfl
          | none =>
            cases hu : client.get_erc721_token_uri a t with
            | error e =>
              rw [save_token_err client db _ a t _ db.next_id e he ht hu]
              rfl
            | ok u =>
              rw [save_token_added client db _ a t _ db.next_id u he ht hu]
              rfl
        rw [hcolls] at h
        rcases List.mem_append.mp h with h1 | h1
        · exact Or.inl h1
        · right
          have : c = ⟨db.next_id, a, n, s⟩ := by simpa using h1
          rw [this]
          exact hpar
      cases o with
      | some pr =>
        obtain ⟨n, s⟩ := pr
        exact key (some n) (some s) rfl (ensure_absent_pair client db a n s hc hns)
      | none =>
        exact key none none rfl (ensure_absent_none client db a hc hns)

lemma u64Mod_eq : u64Mod = 18446744073709551616 := by norm_num [u64Mod]

lemma wsub_eq (a b : Nat) (hb : b ≤ a) (ha : a < u64Mod) : wsub a b = a - b := by
  unfold wsub
  rw [u64Mod_eq] at *
  omega

lemma wadd_wsub_one (f s : Nat) (h1 : 1 ≤ f + s) (h2 : f + s ≤ u64Mod) :
    wsub (wadd f s) 1 = f + s - 1 := by
  unfold wadd wsub
  rw [u64Mod_eq] at *
  omega

lemma compute_to_eq (f s latest : Nat) (h6 : 6 ≤ latest) (hl : latest < u64Mod)
    (h1 : 1 ≤ f + s) (h2 : f + s ≤ u64Mod) :
    compute_to f s latest = min (f + s - 1) (latest - 6) := by
  unfold compute_to
  rw [wadd_wsub_one f s h1 h2, wsub_eq latest 6 h6 hl]

lemma track_iter_break (client : EvmClient) (cb : Erc721Event → Except Unit Unit)
    (eb : Option Nat) (st : ScanState) (latest : Nat) (f : FetchResult)
    (hb : break_check eb (compute_to st.from_ st.step latest) = true) :
    track_iter client cb eb st ⟨HeadResult.ok latest, f⟩ = ⟨st, true, none, 0, []⟩ := by
  unfold track_iter
  simp [hb]

lemma track_iter_fetch_ok (client : EvmClient) (cb : Erc721Event → Except Unit Unit)
    (eb : Option Nat) (st : ScanState) (latest : Nat) (events : List Erc721Event)
    (hb : break_check eb (compute_to st.from_ st.step latest) = false)
    (hge : st.from_ ≤ compute_to st.from_ st.step latest) :
    track_iter client cb eb st ⟨HeadResult.ok latest, FetchResult.ok events⟩ =
      ⟨⟨compute_to st.from_ st.step latest + 1, st.step,
          (process_batch client cb st.db events).1⟩,
        false, some (st.from_, compute_to st.from_ st.step latest), 5,
        (process_batch client cb st.db events).2⟩ := by
  unfold track_iter
  simp [hb, hge]

lemma track_iter_rpc_more (client : EvmClient) (cb : Erc721Event → Except Unit Unit)
    (eb : Option Nat) (st : ScanState) (latest : Nat) (msg : String)
    (hb : break_check eb (compute_to st.from_ st.step latest) = false)
    (hge : st.from_ ≤ compute_to st.from_ st.step latest)
    (hm : contains_more_than msg = true) :
    track_iter client cb eb st ⟨HeadResult.ok latest, FetchResult.rpcErr msg⟩ =
      ⟨⟨st.from_, max (st.step / 2) 1, st.db⟩, false, none, 0, []⟩ := by
  unfold track_iter
  simp [hb, hge, hm]

lemma track_iter_step_bounds (client : EvmClient) (cb : Erc721Event → Except Unit Unit)
    (eb : Option Nat) (st : ScanState) (inp : IterInput) (h : 1 ≤ st.step) :
    1 ≤ (track_iter client cb eb st inp).state.step ∧
    (track_iter client cb eb st inp).state.step ≤ st.step := by
  unfold track_iter
  cases inp.head with
  | err => exact ⟨h, le_rfl⟩
  | ok latest =>
    simp only []
    split
    · exact ⟨h, le_rfl⟩
    · split
      · cases inp.fetch with
        | ok events => exact ⟨h, le_rfl⟩
        | rpcErr msg =>
          simp only []
          split
          · exact ⟨Nat.le_max_right _ 1, max_le (le_trans (Nat.div_le_self _ 2) le_rfl) h⟩
          · exact ⟨h, le_rfl⟩
        | otherErr => exact ⟨h, le_rfl⟩
      · exact ⟨h, le_rfl⟩

lemma track_iter_head_err (client : EvmClient) (cb : Erc721Event → Except Unit Unit)
    (eb : Option Nat) (st : ScanState) (f : FetchResult) :
    track_iter client cb eb st ⟨HeadResult.err, f⟩ = ⟨st, false, none, 30, []⟩ :=
  rfl

lemma track_iter_rpc_other (client : EvmClient) (cb : Erc721Event → Except Unit Unit)
    (eb : Option Nat) (st : ScanState) (latest : Nat) (msg : String)
    (hb : break_check eb (compute_to st.from_ st.step latest) = false)
    (hge : st.from_ ≤ compute_to st.from_ st.step latest)
    (hm : contains_more_than msg = false) :
    track_iter client cb eb st ⟨HeadResult.ok latest, FetchResult.rpcErr msg⟩ =
      ⟨st, false, none, 30, []⟩ := by
  unfold track_iter
  simp [hb, hge, hm]

lemma track_iter_other_err (client : EvmClient) (cb : Erc721Event → Except Unit Unit)
    (eb : Option Nat) (st : ScanState) (latest : Nat)
    (hb : break_check eb (compute_to st.from_ st.step latest) = false)
    (hge : st.from_ ≤ compute_to st.from_ st.step latest) :
    track_iter client cb eb st ⟨HeadResult.ok latest, FetchResult.otherErr⟩ =
      ⟨st, false, none, 30, []⟩ := by
  unfold track_iter
  simp [hb, hge]

lemma track_iter_idle (client : EvmClient) (cb : Erc721Event → Except Unit Unit)
    (eb : Option Nat) (st : ScanState) (latest : Nat) (f : FetchResult)
    (hb : break_check eb (compute_to st.from_ st.step latest) = false)
    (hge : ¬ st.from_ ≤ compute_to st.from_ st.step latest) :
    track_iter client cb eb st ⟨HeadResult.ok latest, f⟩ =
      ⟨st, false, none, 30, []⟩ := by
  unfold track_iter
  simp [hb, hge]

lemma track_iter_step_changed (client : EvmClient) (cb : Erc721Event → Except Unit Unit)
    (eb : Option Nat) (st : ScanState) (inp : IterInput)
    (hne : (track_iter client cb eb st inp).state.step ≠ st.step) :
    ∃ msg, inp.fetch = FetchResult.rpcErr msg ∧ contains_more_than msg = true ∧
      (track_iter client cb eb st inp).state.step = max (st.step / 2) 1 := by
  obtain ⟨hd, f⟩ := inp
  cases hd with
  | err =>
    rw [track_iter_head_err] at hne
    exact absurd rfl hne
  | ok latest =>
    cases hb : break_check eb (compute_to st.from_ st.step latest) with
    | true =>
      rw [track_iter_break client cb eb st latest f hb] at hne
      exact absurd rfl hne
    | false =>
      by_cases hge : st.from_ ≤ compute_to st.from_ st.step latest
      · cases f with
        | ok events =>
          rw [track_iter_fetch_ok client cb eb st latest events hb hge] at hne
          exact absurd rfl hne
        | rpcErr msg =>
          cases hm : contains_more_than msg with
          | true =>
            refine ⟨msg, rfl, hm, ?_⟩
            rw [track_iter_rpc_more client cb eb st latest msg hb hge hm]
          | false =>
            rw [track_iter_rpc_other client cb eb st latest msg hb hge hm] at hne
            exact absurd rfl hne
        | otherErr =>
          rw [track_iter_other_err client cb eb st latest hb hge] at hne
          exact absurd rfl hne
      · rw [track_iter_idle client cb eb st latest f hb hge] at hne
        exact absurd rfl hne

lemma run_loop_step_bounds (client : EvmClient) (cb : Erc721Event → Except Unit Unit)
    (eb : Option Nat) (st : ScanState) (inputs : List IterInput) (h : 1 ≤ st.step) :
    1 ≤ (run_loop client cb eb st inputs).state.step ∧
    (run_loop client cb eb st inputs).state.step ≤ st.step := by
  induction inputs generalizing st with
  | nil => exact ⟨h, le_rfl⟩
  | cons inp rest ih =>
    unfold run_loop
    simp only []
    have hb := track_iter_step_bounds client cb eb st inp h
    split
    · exact hb
    · have hr := ih (track_iter client cb eb st inp).state hb.1
      exact ⟨hr.1, le_trans hr.2 hb.2⟩

lemma process_batch_append (client : EvmClient) (cb : Erc721Event → Except Unit Unit)
    (db : DB) (es1 es2 : List Erc721Event) :
    process_batch client cb db (es1 ++ es2) =
      ((process_batch client cb (process_batch client cb db es1).1 es2).1,
       (process_batch client cb db es1).2 ++
         (process_batch client cb (process_batch client cb db es1).1 es2).2) := by
  induction es1 generalizing db with
  | nil => simp [process_batch]
  | cons e rest ih =>
    simp only [List.cons_append, process_batch, List.append_eq, ih, List.append_assoc]

lemma track_iter_brk_iff (client : EvmClient) (cb : Erc721Event → Except Unit Unit)
    (eb : Option Nat) (st : ScanState) (inp : IterInput) :
    (track_iter client cb eb st inp).brk = true ↔
      ∃ latest, inp.head = HeadResult.ok latest ∧
        break_check eb (compute_to st.from_ st.step latest) = true := by
  obtain ⟨hd, f⟩ := inp
  cases hd with
  | err =>
    rw [track_iter_head_err]
    simp
  | ok latest =>
    cases hb : break_check eb (compute_to st.from_ st.step latest) with
    | true =>
      rw [track_iter_break client cb eb st latest f hb]
      simp [hb]
    | false =>
      have hfalse : (track_iter client cb eb st ⟨HeadResult.ok latest, f⟩).brk = false := by
        by_cases hge : st.from_ ≤ compute_to st.from_ st.step latest
        · cases f with
          | ok events => rw [track_iter_fetch_ok client cb eb st latest events hb hge]
          | rpcErr msg =>
            cases hm : contains_more_than msg with
            | true => rw [track_iter_rpc_more client cb eb st latest msg hb hge hm]
            | false => rw [track_iter_rpc_other client cb eb st latest msg hb hge hm]
          | otherErr => rw [track_iter_other_err client cb eb st latest hb hge]
        · rw [track_iter_idle client cb eb st latest f hb hge]
      rw [hfalse]
      simp [hb]

lemma track_iter_fetched_le_end (client : EvmClient) (cb : Erc721Event → Except Unit Unit)
    (e : Nat) (st : ScanState) (inp : IterInput) (lo hi : Nat)
    (h : (track_iter client cb (some e) st inp).fetched = some (lo, hi)) : hi ≤ e := by
  obtain ⟨hd, f⟩ := inp
  cases hd with
  | err =>
    rw [track_iter_head_err] at h
    simp at h
  | ok latest =>
    cases hb : break_check (some e) (compute_to st.from_ st.step latest) with
    | true =>
      rw [track_iter_break client cb (some e) st latest f hb] at h
      simp at h
    | false =>
      have hle : compute_to st.from_ st.step latest ≤ e := by
        unfold break_check at hb
        simpa using hb
      by_cases hge : st.from_ ≤ compute_to st.from_ st.step latest
      · cases f with
        | ok events =>
          rw [track_iter_fetch_ok client cb (some e) st latest events hb hge] at h
          simp only [Option.some.injEq, Prod.mk.injEq] at h
          rw [← h.2]
          exact hle
        | rpcErr msg =>
          cases hm : contains_more_than msg with
          | true =>
            rw [track_iter_rpc_more client cb (some e) st latest msg hb hge hm] at h
            simp at h
          | false =>
            rw [track_iter_rpc_other client cb (some e) st latest msg hb hge hm] at h
            simp at h
        | otherErr =>
          rw [track_iter_other_err client cb (some e) st latest hb hge] at h
          simp at h
      · rw [track_iter_idle client cb (some e) st latest f hb hge] at h
        simp at h

/-- C1: in every iteration whose head query succeeds, the upper bound of
the scanned range is `to = min(from + step - 1, head - 6)`, so for every
`step` the computed `to` never exceeds the `u64` value of `head - 6`
unconditionally, and never exceeds the mathematical `head - 6` whenever the
`u64` arithmetic does not wrap (cf. C10); concretely, starting at
`from = 1`, `step = 50` with `head = 100` the loop fetches `[1, 50]`,
advances the cursor to 51 and then fetches `[51, 94]`. -/
theorem c1_confirmation_lag_bound :
    (∀ from_ step latest : Nat, compute_to from_ step latest ≤ wsub latest 6) ∧
    (∀ from_ step latest : Nat, 6 ≤ latest → latest < u64Mod →
      1 ≤ from_ + step → from_ + step ≤ u64Mod →
      compute_to from_ step latest ≤ latest - 6) ∧
    ((run_loop client0 cb0 none ⟨1, 50, dbEmpty⟩
        [⟨HeadResult.ok 100, FetchResult.ok []⟩,
         ⟨HeadResult.ok 100, FetchResult.ok []⟩]).fetched = [(1, 50), (51, 94)] ∧
     (run_loop client0 cb0 none ⟨1, 50, dbEmpty⟩
        [⟨HeadResult.ok 100, FetchResult.ok []⟩,
         ⟨HeadResult.ok 100, FetchResult.ok []⟩]).state.from_ = 95) := by
  refine ⟨fun from_ step latest => min_le_right _ _, ?_, by decide, by decide⟩
  intro from_ step latest h6 hl h1 h2
  rw [compute_to_eq from_ step latest h6 hl h1 h2]
  exact min_le_right _ _

/-- C1 witness: the bound instantiated at `from = 1`, `step = 50`,
`head = 100`. -/
theorem c1_confirmation_lag_bound_witness : compute_to 1 50 100 ≤ 100 - 6 :=
  c1_confirmation_lag_bound.2.1 1 50 100 (by decide) (by decide) (by decide)
    (by decide)

/-- C3: when the range fetch fails with an RPC error whose message contains
"more than", the iteration halves the step with a floor of 1, leaves the
cursor and the store unchanged, and sleeps 0 seconds (immediate retry); in
particular a "more than 10000 results" error at `step = 4` yields `step = 2`
with the cursor unchanged. -/
theorem c3_range_too_large_halves_step :
    (∀ (client : EvmClient) (cb : Erc721Event → Except Unit Unit)
        (eb : Option Nat) (st : ScanState) (latest : Nat) (msg : String),
      break_check eb (compute_to st.from_ st.step latest) = false →
      st.from_ ≤ compute_to st.from_ st.step latest →
      contains_more_than msg = true →
      track_iter client cb eb st ⟨HeadResult.ok latest, FetchResult.rpcErr msg⟩ =
        ⟨⟨st.from_, max (st.step / 2) 1, st.db⟩, false, none, 0, []⟩) ∧
    (track_iter client0 cb0 none ⟨1, 4, dbEmpty⟩
        ⟨HeadResult.ok 100, FetchResult.rpcErr "more than 10000 results"⟩ =
      ⟨⟨1, 2, dbEmpty⟩, false, none, 0, []⟩) := by
  constructor
  · exact track_iter_rpc_more
  · decide

/-- C3 witness: the halving rule instantiated on the "more than 10000
results" error at `step = 4`. -/
theorem c3_range_too_large_halves_step_witness :
    track_iter client0 cb0 none ⟨1, 4, dbEmpty⟩
        ⟨HeadResult.ok 100, FetchResult.rpcErr "more than 10000 results"⟩ =
      ⟨⟨1, max (4 / 2) 1, dbEmpty⟩, false, none, 0, []⟩ :=
  c3_range_too_large_halves_step.1 client0 cb0 none ⟨1, 4, dbEmpty⟩ 100
    "more than 10000 results" (by decide) (by decide) (by decide)

/-- C7: the step size never reaches 0 and never exceeds its initial value —
each iteration keeps the new step between 1 and the old step, and over any finite run the final
step stays in `[1, step₀]`; moreover the step changes only in the
"range too large" branch, where it becomes `max (step / 2) 1`. -/
theorem c7_step_monotone :
    (∀ (client : EvmClient) (cb : Erc721Event → Except Unit Unit)
        (eb : Option Nat) (st : ScanState) (inp : IterInput), 1 ≤ st.step →
      1 ≤ (track_iter client cb eb st inp).state.step ∧
      (track_iter client cb eb st inp).state.step ≤ st.step) ∧
    (∀ (client : EvmClient) (cb : Erc721Event → Except Unit Unit)
        (eb : Option Nat) (st : ScanState) (inp : IterInput),
      (track_iter client cb eb st inp).state.step ≠ st.step →
      ∃ msg, inp.fetch = FetchResult.rpcErr msg ∧ contains_more_than msg = true ∧
        (track_iter client cb eb st inp).state.step = max (st.step / 2) 1) ∧
    (∀ (client : EvmClient) (cb : Erc721Event → Except Unit Unit)
        (eb : Option Nat) (st : ScanState) (inputs : List IterInput), 1 ≤ st.step →
      1 ≤ (run_loop client cb eb st inputs).state.step ∧
      (run_loop client cb eb st inputs).state.step ≤ st.step) :=
  ⟨track_iter_step_bounds, track_iter_step_changed, run_loop_step_bounds⟩

/-- C7 witness: the bounds instantiated on a halving iteration from
`step = 4`. -/
theorem c7_step_monotone_witness :
    1 ≤ (track_iter client0 cb0 none ⟨1, 4, dbEmpty⟩
        ⟨HeadResult.ok 100, FetchResult.rpcErr "more than 10000 results"⟩).state.step ∧
    (track_iter client0 cb0 none ⟨1, 4, dbEmpty⟩
        ⟨HeadResult.ok 100, FetchResult.rpcErr "more than 10000 results"⟩).state.step ≤ 4 :=
  c7_step_monotone.1 client0 cb0 none ⟨1, 4, dbEmpty⟩
    ⟨HeadResult.ok 100, FetchResult.rpcErr "more than 10000 results"⟩ (by decide)

/-- C10: the range computation uses unchecked `u64` subtraction: under the
preconditions `6 ≤ head < 2^64` and `1 ≤ from + step ≤ 2^64` both
subtractions agree with the mathematical values and
`to = min(from + step - 1, head - 6)`; but for a successful head query
returning `head = 3 < 6` the subtraction `head - 6` wraps to `2^64 - 3`,
and for `from = 0`, `step = 0` the expression `from + step - 1` wraps to
`2^64 - 1`. -/
theorem c10_u64_underflow_preconditions :
    (∀ from_ step latest : Nat, 6 ≤ latest → latest < u64Mod →
      1 ≤ from_ + step → from_ + step ≤ u64Mod →
      wsub latest 6 = latest - 6 ∧
      wsub (wadd from_ step) 1 = from_ + step - 1 ∧
      compute_to from_ step latest = min (from_ + step - 1) (latest - 6)) ∧
    wsub 3 6 = u64Mod - 3 ∧
    wsub (wadd 0 0) 1 = u64Mod - 1 := by
  refine ⟨fun from_ step latest h6 hl h1 h2 => ⟨wsub_eq latest 6 h6 hl,
    wadd_wsub_one from_ step h1 h2, compute_to_eq from_ step latest h6 hl h1 h2⟩,
    by decide, by decide⟩

/-- C10 witness: the no-underflow case instantiated at `from = 1`,
`step = 50`, `head = 100`. -/
theorem c10_u64_underflow_preconditions_witness :
    wsub 100 6 = 100 - 6 ∧ wsub (wadd 1 50) 1 = 1 + 50 - 1 ∧
    compute_to 1 50 100 = min (1 + 50 - 1) (100 - 6) :=
  c10_u64_underflow_preconditions.1 1 50 100 (by decide) (by decide) (by decide)
    (by decide)

/-- C2 counterexample: with `start_from = 1`, `step = 3`, `end_block = 2`
and a head of 100, the very first iteration computes `to = 3 > 2` and breaks
before fetching anything, so the loop terminates normally while blocks 1 and
2 — up to and including `end_block` — were never scanned.  This refutes the
claim that every block up to and including `end_block` is scanned before the
loop terminates. -/
theorem c2_endblock_counterexample :
    (run_loop client0 cb0 (some 2) ⟨1, 3, dbEmpty⟩
        [⟨HeadResult.ok 100, FetchResult.ok []⟩]).terminated = true ∧
    (run_loop client0 cb0 (some 2) ⟨1, 3, dbEmpty⟩
        [⟨HeadResult.ok 100, FetchResult.ok []⟩]).fetched = [] ∧
    covers (run_loop client0 cb0 (some 2) ⟨1, 3, dbEmpty⟩
        [⟨HeadResult.ok 100, FetchResult.ok []⟩]).fetched 2 = false := by
  refine ⟨by decide, by decide, by decide⟩

/-- C2 amended: an iteration breaks exactly when `end_block` is set and the
computed `to` exceeds it (a normal `break`, not an error); with `end_block`
unset no iteration ever breaks; and every range actually fetched has its
upper bound at most `end_block` — but the loop may terminate with blocks up
to `end_block` never scanned, since the break is checked before the fetch. -/
theorem c2_termination_amended :
    (∀ (client : EvmClient) (cb : Erc721Event → Except Unit Unit)
        (st : ScanState) (inp : IterInput),
      (track_iter client cb none st inp).brk = false) ∧
    (∀ (client : EvmClient) (cb : Erc721Event → Except Unit Unit)
        (e : Nat) (st : ScanState) (latest : Nat) (f : FetchResult),
      (track_iter client cb (some e) st ⟨HeadResult.ok latest, f⟩).brk = true ↔
        e < compute_to st.from_ st.step latest) ∧
    (∀ (client : EvmClient) (cb : Erc721Event → Except Unit Unit)
        (e : Nat) (st : ScanState) (inp : IterInput) (lo hi : Nat),
      (track_iter client cb (some e) st inp).fetched = some (lo, hi) → hi ≤ e) := by
  refine ⟨?_, ?_, track_iter_fetched_le_end⟩
  · intro client cb st inp
    rw [Bool.eq_false_iff]
    intro hbrk
    obtain ⟨latest, _, hb⟩ := (track_iter_brk_iff client cb none st inp).mp hbrk
    simp [break_check] at hb
  · intro client cb e st latest f
    rw [track_iter_brk_iff]
    constructor
    · rintro ⟨latest', heq, hb⟩
      obtain rfl : latest = latest' := by simpa using heq
      simpa [break_check] using hb
    · intro hlt
      exact ⟨latest, rfl, by simpa [break_check] using hlt⟩

/-- C2 amended witness: the break criterion instantiated at `end_block = 2`,
`from = 1`, `step = 3`, `head = 100`. -/
theorem c2_termination_amended_witness :
    (track_iter client0 cb0 (some 2) ⟨1, 3, dbEmpty⟩
        ⟨HeadResult.ok 100, FetchResult.ok []⟩).brk = true ↔
      2 < compute_to 1 3 100 :=
  c2_termination_amended.2.1 client0 cb0 2 ⟨1, 3, dbEmpty⟩ 100 (FetchResult.ok [])

/-- C5: per-event errors are isolated — processing a batch is the sequential
composition of processing its pieces, so an error swallowed while processing
one event never prevents the later events of the batch from being processed
(first two conjuncts), and after a successful fetch the cursor advances to
`to + 1` with every event of the batch dispatched, whatever the resolver or
callback outcomes were (third conjunct). -/
theorem c5_event_errors_isolated :
    (∀ (client : EvmClient) (cb : Erc721Event → Except Unit Unit) (db : DB)
        (es1 es2 : List Erc721Event),
      process_batch client cb db (es1 ++ es2) =
        ((process_batch client cb (process_batch client cb db es1).1 es2).1,
         (process_batch client cb db es1).2 ++
           (process_batch client cb (process_batch client cb db es1).1 es2).2)) ∧
    (∀ (client : EvmClient) (cb : Erc721Event → Except Unit Unit) (db : DB)
        (event : Erc721Event) (rest : List Erc721Event),
      (process_batch client cb db (event :: rest)).2 =
        (process_event client cb db event).2.1 ++
          (process_batch client cb (process_event client cb db event).1 rest).2) ∧
    (∀ (client : EvmClient) (cb : Erc721Event → Except Unit Unit)
        (eb : Option Nat) (st : ScanState) (latest : Nat) (events : List Erc721Event),
      break_check eb (compute_to st.from_ st.step latest) = false →
      st.from_ ≤ compute_to st.from_ st.step latest →
      (track_iter client cb eb st ⟨HeadResult.ok latest, FetchResult.ok events⟩).state.from_
          = compute_to st.from_ st.step latest + 1 ∧
      (track_iter client cb eb st ⟨HeadResult.ok latest, FetchResult.ok events⟩).invocations
          = (process_batch client cb st.db events).2) := by
  refine ⟨process_batch_append, fun client cb db event rest => rfl, ?_⟩
  intro client cb eb st latest events hb hge
  rw [track_iter_fetch_ok client cb eb st latest events hb hge]
  exact ⟨rfl, rfl⟩

/-- C5 witness: the batch decomposition and cursor advance instantiated on a
two-event batch where the callback fails on the first event. -/
theorem c5_event_errors_isolated_witness :
    (track_iter client0 (fun e => if e.token_id = "1" then Except.error () else Except.ok ())
        none ⟨1, 50, dbEmpty⟩
        ⟨HeadResult.ok 100, FetchResult.ok [⟨"0xa", "1"⟩, ⟨"0xa", "2"⟩]⟩).state.from_ = 51 ∧
    (track_iter client0 (fun e => if e.token_id = "1" then Except.error () else Except.ok ())
        none ⟨1, 50, dbEmpty⟩
        ⟨HeadResult.ok 100, FetchResult.ok [⟨"0xa", "1"⟩, ⟨"0xa", "2"⟩]⟩).invocations
      = (process_batch client0
          (fun e => if e.token_id = "1" then Except.error () else Except.ok ())
          dbEmpty [⟨"0xa", "1"⟩, ⟨"0xa", "2"⟩]).2 :=
  c5_event_errors_isolated.2.2 client0
    (fun e => if e.token_id = "1" then Except.error () else Except.ok ())
    none ⟨1, 50, dbEmpty⟩ 100 [⟨"0xa", "1"⟩, ⟨"0xa", "2"⟩] (by decide) (by decide)

/-- C4: rows are created at most once — when the collection row exists the
save performs no name/symbol fetch and leaves the collection table
unchanged; when both rows exist it is a complete no-op with no remote fetch
at all; distinctness of collection addresses and of
`(collection, token_id)` pairs is preserved by every save and across any
run of the loop; and an address seen twice with two differing token ids
from an empty store yields exactly one collection row and two token rows. -/
theorem c4_rows_created_at_most_once :
    (∀ (client : EvmClient) (db : DB) (a t : String) (c : Collection),
      get_collection_from_db db a = some c →
      (save_metadata_to_db_if_not_exists client db a t).1.collections = db.collections ∧
      RemoteFetch.nameSymbol a ∉ (save_metadata_to_db_if_not_exists client db a t).2.1) ∧
    (∀ (client : EvmClient) (db : DB) (a t : String) (c : Collection) (tok : Token),
      get_collection_from_db db a = some c → get_token_from_db db c.id t = some tok →
      save_metadata_to_db_if_not_exists client db a t = (db, [], Except.ok ())) ∧
    (∀ (client : EvmClient) (db : DB) (a t : String),
      db_inv db → db_inv (save_metadata_to_db_if_not_exists client db a t).1) ∧
    (∀ (client : EvmClient) (cb : Erc721Event → Except Unit Unit) (eb : Option Nat)
        (st : ScanState) (inputs : List IterInput),
      db_inv st.db → db_inv (run_loop client cb eb st inputs).state.db) ∧
    (save_metadata_to_db_if_not_exists client0
        (save_metadata_to_db_if_not_exists client0 dbEmpty "0xa" "1").1 "0xa"
        "2").1.collections.length = 1 ∧
    (save_metadata_to_db_if_not_exists client0
        (save_metadata_to_db_if_not_exists client0 dbEmpty "0xa" "1").1 "0xa"
        "2").1.tokens.length = 2 :=
  ⟨save_found_no_refetch, save_both_found_noop, save_preserves_inv,
    run_loop_preserves_inv, by decide, by decide⟩

/-- C4 witness: invariant preservation instantiated on the first save into
the empty store. -/
theorem c4_rows_created_at_most_once_witness :
    db_inv (save_metadata_to_db_if_not_exists client0 dbEmpty "0xa" "1").1 :=
  c4_rows_created_at_most_once.2.2.1 client0 dbEmpty "0xa" "1" (by decide)

/-- C8: every collection row present after a save is either an old row or
has its name and symbol equally set (both present or both absent), because
the chain client returns the pair as a single optional value; consequently
if every row of the store satisfies this parity, it still does after any
save. -/
theorem c8_name_symbol_parity :
    (∀ (client : EvmClient) (db : DB) (a t : String) (c : Collection),
      c ∈ (save_metadata_to_db_if_not_exists client db a t).1.collections →
      c ∈ db.collections ∨ c.name.isSome = c.symbol.isSome) ∧
    (∀ (client : EvmClient) (db : DB) (a t : String),
      (∀ c ∈ db.collections, c.name.isSome = c.symbol.isSome) →
      ∀ c ∈ (save_metadata_to_db_if_not_exists client db a t).1.collections,
        c.name.isSome = c.symbol.isSome) := by
  refine ⟨save_collections_parity, ?_⟩
  intro client db a t hall c hc
  rcases save_collections_parity client db a t c hc with hold | hpar
  · exact hall c hold
  · exact hpar

/-- C8 witness: parity instantiated on the row created by the first save
into the empty store. -/
theorem c8_name_symbol_parity_witness :
    (⟨0, "0xa", some "Name", some "SYM"⟩ : Collection) ∈ dbEmpty.collections ∨
    (Option.some "Name").isSome = (Option.some "SYM").isSome :=
  c8_name_symbol_parity.1 client0 dbEmpty "0xa" "1"
    ⟨0, "0xa", some "Name", some "SYM"⟩ (by decide)

/-- C9: whenever `save_metadata_to_db_if_not_exists` returns `Ok` for an
address and token id of an event, the re-reads of the collection and token rows
performed by `get_metadata` both return `Some`, so the two `.unwrap()`
calls never panic. -/
theorem c9_unwraps_never_panic (client : EvmClient) (db : DB) (event : Erc721Event)
    (h : (save_metadata_to_db_if_not_exists client db event.address
        event.token_id).2.2 = Except.ok ()) :
    (∃ c, get_collection_from_db
        (save_metadata_to_db_if_not_exists client db event.address event.token_id).1
        event.address = some c ∧
      ∃ tok, get_token_from_db
        (save_metadata_to_db_if_not_exists client db event.address event.token_id).1
        c.id event.token_id = some tok) ∧
    (get_metadata client db event).2.2 ≠ Except.error RErr.panicErr := by
  obtain ⟨c, hcoll, tok, htok⟩ :=
    save_ok_lookups client db event.address event.token_id h
  refine ⟨⟨c, hcoll, tok, htok⟩, ?_⟩
  have hs : save_metadata_to_db_if_not_exists client db event.address event.token_id
      = ((save_metadata_to_db_if_not_exists client db event.address event.token_id).1,
         (save_metadata_to_db_if_not_exists client db event.address event.token_id).2.1,
         Except.ok ()) := by
    rw [← h]
  cases hn : c.name with
  | some n =>
    cases hsym : c.symbol with
    | some s =>
      cases hu : tok.token_uri with
      | some u =>
        rw [get_metadata_ready client db _ event _ c tok n s u hs hcoll htok hn hsym hu]
        simp
      | none =>
        rw [get_metadata_pending client db _ event _ c tok hs hcoll htok
          (by simp [hn, hsym, hu])]
        simp
    | none =>
      rw [get_metadata_pending client db _ event _ c tok hs hcoll htok
        (by simp [hn, hsym])]
      simp
  | none =>
    rw [get_metadata_pending client db _ event _ c tok hs hcoll htok (by simp [hn])]
    simp

/-- C9 witness: the lookups and non-panic conclusion instantiated on the
first save into the empty store. -/
theorem c9_unwraps_never_panic_witness :
    (∃ c, get_collection_from_db
        (save_metadata_to_db_if_not_exists client0 dbEmpty "0xa" "1").1 "0xa" = some c ∧
      ∃ tok, get_token_from_db
        (save_metadata_to_db_if_not_exists client0 dbEmpty "0xa" "1").1
        c.id "1" = some tok) ∧
    (get_metadata client0 dbEmpty ⟨"0xa", "1"⟩).2.2 ≠ Except.error RErr.panicErr :=
  c9_unwraps_never_panic client0 dbEmpty ⟨"0xa", "1"⟩ (by decide)

/-- C6: for an event whose save step succeeded, the callback is invoked if
and only if the stored collection row has both name and symbol set and the
stored token row has a URI set; otherwise the resolver returns pending and
`process_event` returns `Ok` without invoking the callback — the event is
dropped with no record and no retry. -/
theorem c6_callback_iff_metadata_ready (client : EvmClient)
    (cb : Erc721Event → Except Unit Unit) (db : DB) (event : Erc721Event)
    (h : (save_metadata_to_db_if_not_exists client db event.address
        event.token_id).2.2 = Except.ok ()) :
    (((process_event client cb db event).2.1 ≠ []) ↔
      metadata_ready
        (save_metadata_to_db_if_not_exists client db event.address event.token_id).1
        event = true) ∧
    (metadata_ready
        (save_metadata_to_db_if_not_exists client db event.address event.token_id).1
        event = false →
      process_event client cb db event =
        ((save_metadata_to_db_if_not_exists client db event.address event.token_id).1,
         [], Except.ok ())) ∧
    (metadata_ready
        (save_metadata_to_db_if_not_exists client db event.address event.token_id).1
        event = true →
      ∃ n s u, (process_event client cb db event).2.1 = [⟨event, n, s, some 0, u⟩]) := by
  obtain ⟨c, hcoll, tok, htok⟩ :=
    save_ok_lookups client db event.address event.token_id h
  have hs : save_metadata_to_db_if_not_exists client db event.address event.token_id
      = ((save_metadata_to_db_if_not_exists client db event.address event.token_id).1,
         (save_metadata_to_db_if_not_exists client db event.address event.token_id).2.1,
         Except.ok ()) := by
    rw [← h]
  have hready := metadata_ready_eq _ event c tok hcoll htok
  cases hn : c.name with
  | some n =>
    cases hsym : c.symbol with
    | some s =>
      cases hu : tok.token_uri with
      | some u =>
        have hm := get_metadata_ready client db _ event _ c tok n s u hs hcoll htok
          hn hsym hu
        have hpe := process_event_of_ready client cb db _ event _ n s u hm
        have hr : metadata_ready
            (save_metadata_to_db_if_not_exists client db event.address
              event.token_id).1 event = true := by
          rw [hready, hn, hsym, hu]
          rfl
        refine ⟨?_, ?_, ?_⟩
        · rw [hpe.2, hr]
          simp
        · intro hfalse
          rw [hr] at hfalse
          exact absurd hfalse (by simp)
        · intro _
          exact ⟨n, s, u, hpe.2⟩
      | none =>
        have hm := get_metadata_pending client db _ event _ c tok hs hcoll htok
          (by simp [hn, hsym, hu])
        have hpe := process_event_of_pending client cb db _ event _ hm
        have hr : metadata_ready
            (save_metadata_to_db_if_not_exists client db event.address
              event.token_id).1 event = false := by
          rw [hready, hn, hsym, hu]
          rfl
        refine ⟨?_, fun _ => hpe, ?_⟩
        · rw [hr, hpe]
          simp
        · intro htrue
          rw [hr] at htrue
          exact absurd htrue (by simp)
    | none =>
      have hm := get_metadata_pending client db _ event _ c tok hs hcoll htok
        (by simp [hn, hsym])
      have hpe := process_event_of_pending client cb db _ event _ hm
      have hr : metadata_ready
          (save_metadata_to_db_if_not_exists client db event.address
            event.token_id).1 event = false := by
        rw [hready, hn, hsym]
        rfl
      refine ⟨?_, fun _ => hpe, ?_⟩
      · rw [hr, hpe]
        simp
      · intro htrue
        rw [hr] at htrue
        exact absurd htrue (by simp)
  | none =>
    have hm := get_metadata_pending client db _ event _ c tok hs hcoll htok
      (by simp [hn])
    have hpe := process_event_of_pending client cb db _ event _ hm
    have hr : metadata_ready
        (save_metadata_to_db_if_not_exists client db event.address
          event.token_id).1 event = false := by
      rw [hready, hn]
      rfl
    refine ⟨?_, fun _ => hpe, ?_⟩
    · rw [hr, hpe]
      simp
    · intro htrue
      rw [hr] at htrue
      exact absurd htrue (by simp)

/-- C6 witness: the delivery criterion instantiated on the first event seen
with the always-successful chain oracle, whose metadata is fully resolvable. -/
theorem c6_callback_iff_metadata_ready_witness :
    (((process_event client0 cb0 dbEmpty ⟨"0xa", "1"⟩).2.1 ≠ []) ↔
      metadata_ready
        (save_metadata_to_db_if_not_exists client0 dbEmpty "0xa" "1").1
        ⟨"0xa", "1"⟩ = true) ∧
    (metadata_ready (save_metadata_to_db_if_not_exists client0 dbEmpty "0xa" "1").1
        ⟨"0xa", "1"⟩ = false →
      process_event client0 cb0 dbEmpty ⟨"0xa", "1"⟩ =
        ((save_metadata_to_db_if_not_exists client0 dbEmpty "0xa" "1").1,
         [], Except.ok ())) ∧
    (metadata_ready (save_metadata_to_db_if_not_exists client0 dbEmpty "0xa" "1").1
        ⟨"0xa", "1"⟩ = true →
      ∃ n s u, (process_event client0 cb0 dbEmpty ⟨"0xa", "1"⟩).2.1
        = [⟨⟨"0xa", "1"⟩, n, s, some 0, u⟩]) :=
  c6_callback_iff_metadata_ready client0 cb0 dbEmpty ⟨"0xa", "1"⟩ (by decide)
